import Mathlib

/-!
Verification of the microscope measurement system (`src/main.py`).

The development shallowly embeds the core of `MeasurementSystem`:
the display-to-native coordinate scaling and signed distance algorithm
(`calculate_distance`, lines 175-197), the overlay drawing scaling
(`update_camera`, lines 131-139), the calibration confirm handler
(`handle_calibration.confirm`, lines 235-249), the session/latch state
transitions (`on_click`, `update_camera`, `start_calibration`,
`start_measurement`, the dialog `on_save`/`on_cancel`), the measurement
ledger (`handle_measurement`, line 263) and the persistence step
(`confirm_save`, lines 275-298).

Machine floats are idealised as exact rationals, with `Real.sqrt` for
`np.sqrt`; Python `int()` is truncation toward zero.
-/

/-- A 2D point; coordinates are the exact values of the Python floats. -/
structure Pt where
  x : ℚ
  y : ℚ
deriving DecidableEq, Repr

/-- The scaling applied to each endpoint inside `calculate_distance`
(src/main.py lines 176-184): `p[0] * original_width / canvas_width`,
`p[1] * original_height / canvas_height`, kept in real arithmetic
(Python float division, no `int()` here). -/
def scale_point (p : Pt) (ow oh cw ch : ℚ) : Pt :=
  ⟨p.x * ow / cw, p.y * oh / ch⟩

/-- Python `int()` on a float: truncation toward zero. -/
def truncQ (q : ℚ) : ℤ :=
  if 0 ≤ q then ⌊q⌋ else ⌈q⌉

/-- The scaling applied to the drag endpoints in the drawing path of
`update_camera` (src/main.py lines 131-139): the same ratio but wrapped
in `int(...)`, i.e. truncated toward zero. -/
def draw_scale_point (p : Pt) (ow oh cw ch : ℚ) : ℤ × ℤ :=
  (truncQ (p.x * ow / cw), truncQ (p.y * oh / ch))

/-- The signed-distance core of `calculate_distance`
(src/main.py lines 186-197), acting on already-scaled points:
`distance = sqrt(dx^2 + dy^2)`; if `|dx| > |dy|` the sign is negative
exactly when `p2.x < p1.x`, otherwise negative exactly when
`p2.y < p1.y`. -/
noncomputable def calculate_distance (p1 p2 : Pt) : ℝ :=
  let distance : ℝ := Real.sqrt (((p2.x - p1.x) ^ 2 + (p2.y - p1.y) ^ 2 : ℚ) : ℝ)
  let x_dist : ℚ := |p2.x - p1.x|
  let y_dist : ℚ := |p2.y - p1.y|
  if x_dist > y_dist then
    if p2.x < p1.x then -distance else distance
  else
    if p2.y < p1.y then -distance else distance

/-- The whole of `calculate_distance` (src/main.py lines 175-197):
scale both display points to native resolution, then apply the signed
distance. -/
noncomputable def calculate_distance_full (p1 p2 : Pt) (ow oh cw ch : ℚ) : ℝ :=
  calculate_distance (scale_point p1 ow oh cw ch) (scale_point p2 ow oh cw ch)

/-- One recorded measurement: the dict built in `handle_measurement`
(src/main.py lines 266-272). The timestamp is an abstract instant. -/
structure Rec where
  machine : String
  measurement_number : ℕ
  length_in : ℚ
  option : String
  timestamp : ℕ
deriving DecidableEq, Repr

/-- The sequence number computed in `handle_measurement`
(src/main.py line 263): the count of stored measurements whose `machine`
and `option` both match exactly, plus one. -/
def measurement_number (measurements : List Rec) (machine opt : String) : ℕ :=
  (measurements.filter (fun m => m.machine == machine && m.option == opt)).length + 1

/-- Python truthiness of `self.calibration_factor`: `None` and `0.0`
are falsy, everything else truthy. -/
def truthy : Option ℚ → Bool
  | none => false
  | some q => !(q == 0)

/-- The session state of `MeasurementSystem` relevant to the mode,
drag and held-frame latch: `frame` is the current held frame (as an
abstract acquisition id), the rest are the fields of the same name. -/
structure SysState where
  frame : Option ℕ
  measurement_in_progress : Bool
  calibrating : Bool
  measuring : Bool
  calibration_factor : Option ℚ
  start_point : Option Pt
  current_point : Option Pt
deriving DecidableEq, Repr

/-- Operator-visible status reports (the `status_var` strings). -/
inductive Msg where
  | calibrateFirst
  | clickDragCalibrate
  | clickDragMeasure
  | invalidValue
  | calibrated (f : ℚ)
  | enterMachine
  | confirmDialog
deriving DecidableEq, Repr

/-- The frame-acquisition step of `update_camera` (src/main.py lines
116-122): a successful read replaces `self.frame` only when no
measurement is in progress. -/
def update_camera_frame (s : SysState) (newFrame : ℕ) : SysState :=
  if s.measurement_in_progress then s else { s with frame := some newFrame }

/-- `on_click` (src/main.py lines 199-203): in calibrating or measuring
mode, fix both drag endpoints at the pointer position and latch the
held frame via `measurement_in_progress`. -/
def on_click (s : SysState) (p : Pt) : SysState :=
  if s.calibrating || s.measuring then
    { s with start_point := some p, current_point := some p,
             measurement_in_progress := true }
  else s

/-- `start_calibration` (src/main.py lines 320-323). -/
def start_calibration (s : SysState) : SysState :=
  { s with calibrating := true, measuring := false }

/-- `start_measurement` (src/main.py lines 325-331): refuse with a
calibrate-first report when `self.calibration_factor` is falsy, else
enter measuring mode and leave calibrating. -/
def start_measurement (s : SysState) : SysState × Msg :=
  if !(truthy s.calibration_factor) then (s, .calibrateFirst)
  else ({ s with measuring := true, calibrating := false }, .clickDragMeasure)

/-- The `confirm` callback of `handle_calibration` (src/main.py lines
235-249): `input = none` models a `ValueError` from `float(...)` (the
factor is left unchanged and an invalid-value report is shown);
otherwise `calibration_factor := known_length / pixels` is stored
unconditionally and calibrating mode ends. `pixels` is the signed
distance handed over by `on_release`. -/
def handle_calibration_confirm (s : SysState) (input : Option ℚ) (pixels : ℚ) :
    SysState × Msg :=
  match input with
  | none => (s, .invalidValue)
  | some known_length =>
      ({ s with calibration_factor := some (known_length / pixels),
                calibrating := false },
        .calibrated (known_length / pixels))

/-- The latch effect of the `on_save` dialog callback
(src/main.py lines 300-303): reset `measurement_in_progress`. -/
def on_save_flag (s : SysState) : SysState :=
  { s with measurement_in_progress := false }

/-- The latch effect of the `on_cancel` dialog callback
(src/main.py lines 305-307): reset `measurement_in_progress`. -/
def on_cancel_flag (s : SysState) : SysState :=
  { s with measurement_in_progress := false }

/-- The possible outcomes of `handle_measurement` before any dialog
button is pressed. -/
inductive MeasureOutcome where
  | calibrateFirst
  | enterMachine
  | confirmDialog (pending : Rec)
deriving DecidableEq, Repr

/-- `handle_measurement` (src/main.py lines 253-272): refuse with a
calibrate-first report when the factor is falsy, then with an
enter-machine report when the machine name is empty; otherwise build
the pending measurement dict (sequence number from the current list,
length `pixels * factor`) and open the confirm dialog. -/
def handle_measurement (factor : Option ℚ) (machine opt : String)
    (measurements : List Rec) (pixels : ℚ) (now : ℕ) : MeasureOutcome :=
  if !(truthy factor) then .calibrateFirst
  else if machine == "" then .enterMachine
  else .confirmDialog
    ⟨machine, measurement_number measurements machine opt,
      pixels * factor.getD 0, opt, now⟩

/-- The readout branch of `on_drag` (src/main.py lines 209-214): with a
truthy calibration factor in measuring mode show `pixels * factor`
(flag `true`, inches), else show the raw pixel distance (flag `false`). -/
noncomputable def on_drag_readout (factor : Option ℚ) (measuring : Bool)
    (pixels : ℝ) : ℝ × Bool :=
  if truthy factor && measuring then (pixels * ((factor.getD 0 : ℚ) : ℝ), true)
  else (pixels, false)

/-- The durable side of a committed measurement: the CSV log rows, the
snapshot keys `(machine, option, sequence number)` written by
`cv2.imwrite`, and the in-memory `self.measurements` list. -/
structure StoreState where
  csv_rows : List Rec
  snapshots : List (String × String × ℕ)
  measurements : List Rec
deriving DecidableEq, Repr

/-- `confirm_save` (src/main.py lines 275-298): append the CSV row,
then write the snapshot image only when a frame exists
(`if self.frame is not None`), then append to `self.measurements`. -/
def confirm_save (st : StoreState) (frame : Option ℕ) (machine opt : String)
    (m : Rec) : StoreState :=
  let st1 := { st with csv_rows := st.csv_rows ++ [m] }
  let st2 :=
    if frame.isSome then
      { st1 with snapshots := st1.snapshots ++ [(machine, opt, m.measurement_number)] }
    else st1
  { st2 with measurements := st2.measurements ++ [m] }

/-- A resolved measurement dialog, as seen by the ledger. -/
inductive Event where
  | commit (machine opt : String) (len : ℚ) (now : ℕ)
  | cancel (machine opt : String) (len : ℚ) (now : ℕ)
deriving DecidableEq, Repr

/-- One resolved dialog applied to the ledger: a confirmed save appends
the pending record built by `handle_measurement` (sequence number
computed from the current list, line 263; append in `confirm_save`,
line 298); a cancelled one leaves the list unchanged (`on_cancel`,
lines 305-307). -/
def stepLedger (measurements : List Rec) : Event → List Rec
  | .commit machine opt len now =>
      measurements ++
        [⟨machine, measurement_number measurements machine opt, len, opt, now⟩]
  | .cancel _ _ _ _ => measurements

/-- A whole session's ledger, starting from the empty list. -/
def runLedger (es : List Event) : List Rec := es.foldl stepLedger []

/-- How many dialogs for `(machine, opt)` were confirmed. -/
def commitsFor (es : List Event) (machine opt : String) : ℕ :=
  es.countP (fun e =>
    match e with
    | .commit m o _ _ => m == machine && o == opt
    | .cancel _ _ _ _ => false)

lemma calculate_distance_def (p1 p2 : Pt) :
    calculate_distance p1 p2 =
      if |p2.x - p1.x| > |p2.y - p1.y| then
        if p2.x < p1.x then
          -Real.sqrt (((p2.x - p1.x) ^ 2 + (p2.y - p1.y) ^ 2 : ℚ) : ℝ)
        else Real.sqrt (((p2.x - p1.x) ^ 2 + (p2.y - p1.y) ^ 2 : ℚ) : ℝ)
      else
        if p2.y < p1.y then
          -Real.sqrt (((p2.x - p1.x) ^ 2 + (p2.y - p1.y) ^ 2 : ℚ) : ℝ)
        else Real.sqrt (((p2.x - p1.x) ^ 2 + (p2.y - p1.y) ^ 2 : ℚ) : ℝ) := by
  rfl

lemma radicand_nonneg (p1 p2 : Pt) :
    (0 : ℝ) ≤ (((p2.x - p1.x) ^ 2 + (p2.y - p1.y) ^ 2 : ℚ) : ℝ) := by
  push_cast
  positivity

lemma radicand_pos_of_dx (p1 p2 : Pt) (h : p2.x - p1.x ≠ 0) :
    (0 : ℝ) < (((p2.x - p1.x) ^ 2 + (p2.y - p1.y) ^ 2 : ℚ) : ℝ) := by
  have h1 : (0 : ℚ) < (p2.x - p1.x) ^ 2 + (p2.y - p1.y) ^ 2 := by
    have hx : (0 : ℚ) < (p2.x - p1.x) ^ 2 := by positivity
    have hy : (0 : ℚ) ≤ (p2.y - p1.y) ^ 2 := sq_nonneg _
    linarith
  exact_mod_cast h1

lemma radicand_pos_of_dy (p1 p2 : Pt) (h : p2.y - p1.y ≠ 0) :
    (0 : ℝ) < (((p2.x - p1.x) ^ 2 + (p2.y - p1.y) ^ 2 : ℚ) : ℝ) := by
  have h1 : (0 : ℚ) < (p2.x - p1.x) ^ 2 + (p2.y - p1.y) ^ 2 := by
    have hy : (0 : ℚ) < (p2.y - p1.y) ^ 2 := by positivity
    have hx : (0 : ℚ) ≤ (p2.x - p1.x) ^ 2 := sq_nonneg _
    linarith
  exact_mod_cast h1

/-- C1: for every pair of native points, `calculate_distance` has
magnitude `sqrt(dx^2 + dy^2)`; when `|dx| > |dy|` it is negative exactly
when `p2.x < p1.x`; otherwise (including the exact diagonal) it is
negative exactly when `p2.y < p1.y`; a zero-length gesture yields `0`;
and concretely `calculate_distance (0,0) (10,3) = sqrt 109 ∈ (10.44, 10.45)`
and `calculate_distance (10,0) (0,0) = -10`. -/
theorem C1_signed_distance (p1 p2 : Pt) :
    |calculate_distance p1 p2|
        = Real.sqrt (((p2.x - p1.x) ^ 2 + (p2.y - p1.y) ^ 2 : ℚ) : ℝ)
    ∧ (|p2.x - p1.x| > |p2.y - p1.y| →
        (calculate_distance p1 p2 < 0 ↔ p2.x < p1.x))
    ∧ (¬ |p2.x - p1.x| > |p2.y - p1.y| →
        (calculate_distance p1 p2 < 0 ↔ p2.y < p1.y))
    ∧ (p1 = p2 → calculate_distance p1 p2 = 0)
    ∧ calculate_distance ⟨0, 0⟩ ⟨10, 3⟩ = Real.sqrt 109
    ∧ (10.44 : ℝ) < Real.sqrt 109 ∧ Real.sqrt 109 < (10.45 : ℝ)
    ∧ calculate_distance ⟨10, 0⟩ ⟨0, 0⟩ = -10 := by
  refine ⟨?_, ?_, ?_, ?_, ?_, ?_, ?_, ?_⟩
  · rw [calculate_distance_def]
    split_ifs <;>
      simp [abs_of_nonneg (Real.sqrt_nonneg _)]
  · intro h
    have hdx : p2.x - p1.x ≠ 0 := by
      intro he
      rw [he] at h
      simp at h
      exact absurd h (not_lt.mpr (abs_nonneg _))
    have hpos := Real.sqrt_pos.mpr (radicand_pos_of_dx p1 p2 hdx)
    rw [calculate_distance_def, if_pos h]
    split_ifs with hx
    · exact iff_of_true (by linarith) hx
    · exact iff_of_false (not_lt.mpr (Real.sqrt_nonneg _)) hx
  · intro h
    rw [calculate_distance_def, if_neg h]
    split_ifs with hy
    · have hdy : p2.y - p1.y ≠ 0 := by
        intro he
        have : p2.y = p1.y := by linarith [sub_eq_zero.mp he]
        exact absurd hy (by rw [this]; exact lt_irrefl _)
      have hpos := Real.sqrt_pos.mpr (radicand_pos_of_dy p1 p2 hdy)
      exact iff_of_true (by linarith) hy
    · exact iff_of_false (not_lt.mpr (Real.sqrt_nonneg _)) hy
  · intro he
    subst he
    rw [calculate_distance_def]
    have h0 : ((p1.x - p1.x) ^ 2 + (p1.y - p1.y) ^ 2 : ℚ) = 0 := by ring
    simp [h0]
  · rw [calculate_distance_def]
    norm_num
  · refine (Real.lt_sqrt (by norm_num)).mpr ?_
    norm_num
  · refine (Real.sqrt_lt' (by norm_num)).mpr ?_
    norm_num
  · rw [calculate_distance_def]
    have hsq : Real.sqrt ((((0 : ℚ) - 10) ^ 2 + ((0 : ℚ) - 0) ^ 2 : ℚ) : ℝ) = 10 := by
      have h100 : ((((0 : ℚ) - 10) ^ 2 + ((0 : ℚ) - 0) ^ 2 : ℚ) : ℝ) = 10 ^ 2 := by
        norm_num
      rw [h100, Real.sqrt_sq (by norm_num)]
    simp only [show (Pt.mk 0 0).x = 0 from rfl, show (Pt.mk 0 0).y = 0 from rfl,
      show (Pt.mk 10 0).x = 10 from rfl, show (Pt.mk 10 0).y = 0 from rfl]
    rw [if_pos (by norm_num), if_pos (by norm_num), hsq]

/-- C9: swapping the endpoints of a non-diagonal gesture flips the sign
of `calculate_distance` and leaves the magnitude invariant. -/
theorem C9_swap_antisymmetry (p1 p2 : Pt) (hne : p1 ≠ p2)
    (hd : |p2.x - p1.x| ≠ |p2.y - p1.y|) :
    calculate_distance p1 p2 = -calculate_distance p2 p1 ∧
      |calculate_distance p1 p2| = |calculate_distance p2 p1| := by
  have hrad : (((p1.x - p2.x) ^ 2 + (p1.y - p2.y) ^ 2 : ℚ) : ℝ)
      = (((p2.x - p1.x) ^ 2 + (p2.y - p1.y) ^ 2 : ℚ) : ℝ) := by
    push_cast
    ring
  have hax : |p1.x - p2.x| = |p2.x - p1.x| := abs_sub_comm _ _
  have hay : |p1.y - p2.y| = |p2.y - p1.y| := abs_sub_comm _ _
  have main : calculate_distance p1 p2 = -calculate_distance p2 p1 := by
    rw [calculate_distance_def, calculate_distance_def, hrad, hax, hay]
    rcases lt_or_gt_of_ne hd with h | h
    · rw [if_neg (not_lt.mpr h.le), if_neg (not_lt.mpr h.le)]
      have hdy : p2.y ≠ p1.y := by
        intro he
        rw [he, sub_self, abs_zero] at h
        exact absurd h (not_lt.mpr (abs_nonneg _))
      rcases hdy.lt_or_lt with hy | hy
      · rw [if_pos hy, if_neg (not_lt.mpr hy.le)]
      · rw [if_neg (not_lt.mpr hy.le), if_pos hy]
        ring
    · rw [if_pos h, if_pos h]
      have hdx : p2.x ≠ p1.x := by
        intro he
        rw [he, sub_self, abs_zero] at h
        exact absurd h (not_lt.mpr (abs_nonneg _))
      rcases hdx.lt_or_lt with hx | hx
      · rw [if_pos hx, if_neg (not_lt.mpr hx.le)]
      · rw [if_neg (not_lt.mpr hx.le), if_pos hx]
        ring
  exact ⟨main, by rw [main, abs_neg]⟩

/-- Witness for C9 at `p1 = (0,0)`, `p2 = (10,3)`. -/
theorem C9_swap_antisymmetry_witness :
    calculate_distance ⟨0, 0⟩ ⟨10, 3⟩ = -calculate_distance ⟨10, 3⟩ ⟨0, 0⟩ ∧
      |calculate_distance ⟨0, 0⟩ ⟨10, 3⟩| = |calculate_distance ⟨10, 3⟩ ⟨0, 0⟩| :=
  C9_swap_antisymmetry ⟨0, 0⟩ ⟨10, 3⟩ (by norm_num [Pt.mk.injEq]) (by norm_num)

/-- Witness for C1's conditional conjuncts at `p1 = (0,0)`, `p2 = (10,3)`. -/
theorem C1_signed_distance_witness :
    (|(10 : ℚ) - 0| > |(3 : ℚ) - 0|) ∧
      (calculate_distance ⟨0, 0⟩ ⟨10, 3⟩ < 0 ↔ (10 : ℚ) < 0) :=
  ⟨by norm_num, (C1_signed_distance ⟨0, 0⟩ ⟨10, 3⟩).2.1 (by norm_num)⟩

lemma ledger_invariant (machine opt : String) :
    ∀ (es : List Event) (ms : List Rec),
      (ms.filter (fun m => m.machine == machine && m.option == opt)).map
          (fun m => m.measurement_number)
        = List.range' 1
            ((ms.filter (fun m => m.machine == machine && m.option == opt)).length) →
      ((es.foldl stepLedger ms).filter
            (fun m => m.machine == machine && m.option == opt)).map
          (fun m => m.measurement_number)
        = List.range' 1
            ((ms.filter (fun m => m.machine == machine && m.option == opt)).length
              + commitsFor es machine opt)
      ∧ ((es.foldl stepLedger ms).filter
            (fun m => m.machine == machine && m.option == opt)).length
        = (ms.filter (fun m => m.machine == machine && m.option == opt)).length
            + commitsFor es machine opt
  | [], ms, h => by
      simpa [commitsFor, List.foldl] using h
  | e :: es, ms, h => by
      rw [List.foldl_cons]
      cases e with
      | cancel m o l n =>
          have hstep : stepLedger ms (Event.cancel m o l n) = ms := rfl
          rw [hstep]
          have hc : commitsFor (Event.cancel m o l n :: es) machine opt
              = commitsFor es machine opt := by
            simp [commitsFor, List.countP_cons]
          rw [hc]
          exact ledger_invariant machine opt es ms h
      | commit m o l n =>
          have hc : commitsFor (Event.commit m o l n :: es) machine opt
              = commitsFor es machine opt
                + (if (m == machine && o == opt) then 1 else 0) := by
            simp [commitsFor, List.countP_cons]
          by_cases hmo : (m == machine && o == opt) = true
          · have hm : m = machine := eq_of_beq (Bool.and_eq_true _ _ |>.mp hmo).1
            have ho : o = opt := eq_of_beq (Bool.and_eq_true _ _ |>.mp hmo).2
            subst hm
            subst ho
            have hfilter :
                ((ms ++ [(⟨m, measurement_number ms m o, l, o, n⟩ : Rec)]).filter
                    (fun r => r.machine == m && r.option == o))
                  = ms.filter (fun r => r.machine == m && r.option == o)
                    ++ [(⟨m, measurement_number ms m o, l, o, n⟩ : Rec)] := by
              simp [List.filter_append]
            have h' :
                ((ms ++ [(⟨m, measurement_number ms m o, l, o, n⟩ : Rec)]).filter
                    (fun r => r.machine == m && r.option == o)).map
                  (fun r => r.measurement_number)
                = List.range' 1
                    (((ms ++ [(⟨m, measurement_number ms m o, l, o, n⟩ : Rec)]).filter
                        (fun r => r.machine == m && r.option == o)).length) := by
              rw [hfilter, List.map_append, h]
              have hlen :
                  (ms.filter (fun r => r.machine == m && r.option == o)).length + 1
                    = ((ms.filter (fun r => r.machine == m && r.option == o))
                        ++ [(⟨m, measurement_number ms m o, l, o, n⟩ : Rec)]).length := by
                simp
              rw [← hlen]
              have hrange :
                  List.range' 1
                      ((ms.filter (fun r => r.machine == m && r.option == o)).length + 1)
                    = List.range' 1
                        ((ms.filter (fun r => r.machine == m && r.option == o)).length)
                      ++ [1 + 1 *
                          (ms.filter (fun r => r.machine == m && r.option == o)).length] :=
                List.range'_concat 1 _
              rw [hrange]
              simp [measurement_number]
              omega
            have hstep : stepLedger ms (Event.commit m o l n)
                = ms ++ [(⟨m, measurement_number ms m o, l, o, n⟩ : Rec)] := rfl
            rw [hstep, hc]
            obtain ⟨h1, h2⟩ := ledger_invariant m o es
              (ms ++ [(⟨m, measurement_number ms m o, l, o, n⟩ : Rec)]) h'
            constructor
            · rw [h1, hfilter]
              congr 1
              simp
              omega
            · rw [h2, hfilter]
              simp
              omega
          · have hmo' : (m == machine && o == opt) = false := by
              simpa using hmo
            have hfilter :
                ((ms ++ [(⟨m, measurement_number ms m o, l, o, n⟩ : Rec)]).filter
                    (fun r => r.machine == machine && r.option == opt))
                  = ms.filter (fun r => r.machine == machine && r.option == opt) := by
              simp [List.filter_append, hmo']
            have hstep : stepLedger ms (Event.commit m o l n)
                = ms ++ [(⟨m, measurement_number ms m o, l, o, n⟩ : Rec)] := rfl
            rw [hstep, hc, hmo']
            have h' :
                ((ms ++ [(⟨m, measurement_number ms m o, l, o, n⟩ : Rec)]).filter
                    (fun r => r.machine == machine && r.option == opt)).map
                  (fun r => r.measurement_number)
                = List.range' 1
                    (((ms ++ [(⟨m, measurement_number ms m o, l, o, n⟩ : Rec)]).filter
                        (fun r => r.machine == machine && r.option == opt)).length) := by
              rw [hfilter]
              exact h
            obtain ⟨h1, h2⟩ := ledger_invariant machine opt es
              (ms ++ [(⟨m, measurement_number ms m o, l, o, n⟩ : Rec)]) h'
            constructor
            · rw [h1, hfilter]
              simp
            · rw [h2, hfilter]
              simp

/-- C5: in every run of the ledger, the records committed for a given
`(machine, option)` pair carry the sequence numbers `1, 2, ...` in
order — the next number is always the count of already-committed
matching records plus one (exact, case-sensitive string matching) — and
a cancelled save confirmation changes nothing. -/
theorem C5_sequence_numbering :
    (∀ es machine opt,
      ((runLedger es).filter (fun m => m.machine == machine && m.option == opt)).map
          (fun m => m.measurement_number)
        = List.range' 1 (commitsFor es machine opt))
    ∧ (∀ ms machine opt len now, stepLedger ms (.cancel machine opt len now) = ms)
    ∧ (∀ ms machine opt,
        measurement_number ms machine opt
          = (ms.filter (fun m => m.machine == machine && m.option == opt)).length + 1) := by
  refine ⟨?_, ?_, ?_⟩
  · intro es machine opt
    have h0 : (([] : List Rec).filter
          (fun m => m.machine == machine && m.option == opt)).map
        (fun m => m.measurement_number)
      = List.range' 1
          ((([] : List Rec).filter
              (fun m => m.machine == machine && m.option == opt)).length) := by
      simp
    obtain ⟨h1, _⟩ := ledger_invariant machine opt es [] h0
    rw [runLedger]
    rw [h1]
    simp
  · intro ms machine opt len now
    rfl
  · intro ms machine opt
    rfl

/-- C8 as stated is false: a factor stored as `0.0` *is* set
(`isSome`), yet the begin-measurement command refuses with the
calibrate-first report and does not enter measuring mode. -/
theorem C8_zero_factor_counterexample :
    (SysState.mk none false true false (some 0) none none).calibration_factor.isSome
        = true
    ∧ start_measurement (SysState.mk none false true false (some 0) none none)
        = (SysState.mk none false true false (some 0) none none, Msg.calibrateFirst)
    ∧ (start_measurement
          (SysState.mk none false true false (some 0) none none)).1.measuring = false := by
  refine ⟨rfl, ?_, ?_⟩ <;> rfl

/-- C8 amended: begin-measurement refuses with the calibrate-first
report and leaves the whole session state unchanged whenever the stored
factor is falsy (unset, or set to exactly `0.0`); with a set nonzero
factor it enters measuring mode, leaves calibrating mode, and changes
nothing else. -/
theorem C8_start_measurement (s : SysState) :
    (truthy s.calibration_factor = false →
      start_measurement s = (s, Msg.calibrateFirst))
    ∧ (truthy s.calibration_factor = true →
      start_measurement s
        = ({ s with measuring := true, calibrating := false }, Msg.clickDragMeasure)) := by
  constructor <;> intro h <;> simp [start_measurement, h]

/-- C10: a calibration factor stored as exactly `0.0` behaves like an
unset factor in every operation that tests for calibration:
begin-measurement refuses identically, measurement completion refuses
identically and creates no record, and the live drag readout falls back
to the raw pixel distance identically. -/
theorem C10_zero_factor_as_unset (s : SysState)
    (h : s.calibration_factor = some 0) :
    start_measurement s = (s, Msg.calibrateFirst)
    ∧ (start_measurement s).2
        = (start_measurement { s with calibration_factor := none }).2
    ∧ (start_measurement s).1.measuring
        = (start_measurement { s with calibration_factor := none }).1.measuring
    ∧ (∀ machine opt ms pixels now,
        handle_measurement (some 0) machine opt ms pixels now
            = MeasureOutcome.calibrateFirst
          ∧ handle_measurement (some 0) machine opt ms pixels now
              = handle_measurement none machine opt ms pixels now)
    ∧ (∀ measuring pixels,
        on_drag_readout (some 0) measuring pixels = (pixels, false)
          ∧ on_drag_readout (some 0) measuring pixels
              = on_drag_readout none measuring pixels) := by
  refine ⟨?_, ?_, ?_, ?_, ?_⟩
  · simp [start_measurement, truthy, h]
  · simp [start_measurement, truthy, h]
  · simp [start_measurement, truthy, h]
  · intro machine opt ms pixels now
    constructor <;> simp [handle_measurement, truthy]
  · intro measuring pixels
    constructor <;> simp [on_drag_readout, truthy]

/-- Witness for C10 at a concrete session state with factor `0.0`. -/
theorem C10_zero_factor_as_unset_witness :
    start_measurement (SysState.mk none false false false (some 0) none none)
      = (SysState.mk none false false false (some 0) none none, Msg.calibrateFirst) :=
  (C10_zero_factor_as_unset (SysState.mk none false false false (some 0) none none) rfl).1

/-- C3 is right and the code wrong: `handle_calibration`'s confirm has
no InvalidCalibration guard at all. With a previously stored factor
`1/100`, entering the non-positive known length `-5` over a 10-pixel
reference gesture *applies* the calibration: the stored factor becomes
`-1/2` and calibrating mode ends, instead of failing and leaving the
stored factor unchanged. (A zero pixel distance is equally unguarded:
the quotient is stored as-is.) Only a non-numeric entry is rejected,
and that path indeed leaves the factor unchanged. -/
theorem C3_no_invalid_calibration_guard :
    handle_calibration_confirm
        (SysState.mk none false true false (some (1/100)) none none) (some (-5)) 10
      = (SysState.mk none false false false (some (-(1/2))) none none,
          Msg.calibrated (-(1/2)))
    ∧ handle_calibration_confirm
        (SysState.mk none false true false (some (1/100)) none none) none 10
      = (SysState.mk none false true false (some (1/100)) none none,
          Msg.invalidValue) := by
  constructor
  · have hdiv : (-5 : ℚ) / 10 = -(1/2) := by norm_num
    simp [handle_calibration_confirm, hdiv]
  · rfl

/-- C4 as stated is false: the factor is computed from the *signed*
pixel distance. A right-to-left reference gesture (signed distance
`-100`) confirmed with the positive known length `2` stores the
strictly negative factor `-1/50`. -/
theorem C4_signed_factor_counterexample :
    (handle_calibration_confirm
        (SysState.mk none false true false none none none) (some 2) (-100)).1.calibration_factor
      = some (-(1/50))
    ∧ (-(1/50) : ℚ) < 0 := by
  constructor
  · have hdiv : (2 : ℚ) / (-100) = -(1/50) := by norm_num
    simp [handle_calibration_confirm, hdiv]
  · norm_num

/-- C4 amended: a successful calibration stores exactly
`known_length / pixels` with the *signed* pixel distance, so the stored
factor is strictly positive iff the known length and the signed
distance share a sign — a right-to-left reference gesture with a
positive known length stores a negative factor — and no other session
operation changes the stored factor until recalibration. -/
theorem C4_factor_from_signed_distance (s : SysState) (known pixels : ℚ) :
    (handle_calibration_confirm s (some known) pixels).1.calibration_factor
        = some (known / pixels)
    ∧ (0 < known / pixels ↔ 0 < known ∧ 0 < pixels ∨ known < 0 ∧ pixels < 0)
    ∧ (∀ f, (update_camera_frame s f).calibration_factor = s.calibration_factor)
    ∧ (∀ p, (on_click s p).calibration_factor = s.calibration_factor)
    ∧ (start_calibration s).calibration_factor = s.calibration_factor
    ∧ ((start_measurement s).1).calibration_factor = s.calibration_factor
    ∧ (on_save_flag s).calibration_factor = s.calibration_factor
    ∧ (on_cancel_flag s).calibration_factor = s.calibration_factor := by
  refine ⟨rfl, div_pos_iff, ?_, ?_, rfl, ?_, rfl, rfl⟩
  · intro f
    by_cases h : s.measurement_in_progress <;> simp [update_camera_frame, h]
  · intro p
    by_cases h : s.calibrating || s.measuring <;> simp [on_click, h]
  · by_cases h : truthy s.calibration_factor <;> simp [start_measurement, h]

/-- C6 is right and the code wrong: a commit is not atomic. With no
held frame (`self.frame is None`), `confirm_save` appends the CSV row
and the in-memory record but writes no snapshot — the record is stored
without its snapshot, there is no PersistenceError path, and the
committed record still counts toward the next sequence number. -/
theorem C6_commit_not_atomic :
    confirm_save (StoreState.mk [] [] []) none "M1" "inkframe_cal"
        (Rec.mk "M1" 1 5 "inkframe_cal" 0)
      = StoreState.mk [Rec.mk "M1" 1 5 "inkframe_cal" 0] []
          [Rec.mk "M1" 1 5 "inkframe_cal" 0]
    ∧ measurement_number [Rec.mk "M1" 1 5 "inkframe_cal" 0] "M1" "inkframe_cal" = 2 := by
  constructor
  · rfl
  · rfl

/-- The gesture trace refuting C7: hold frame `0`, begin calibration,
pointer-down at `(1,1)`. -/
def c7_after_click : SysState :=
  on_click (start_calibration (SysState.mk (some 0) false false false none none none))
    ⟨1, 1⟩

/-- An acquisition tick delivering frame `7` during the gesture. -/
def c7_during : SysState := update_camera_frame c7_after_click 7

/-- The gesture resolves: the calibration dialog is confirmed with
known length `2` over the 100-pixel reference. -/
def c7_resolved : SysState := (handle_calibration_confirm c7_during (some 2) 100).1

/-- An acquisition tick delivering frame `8` after the resolution. -/
def c7_next_tick : SysState := update_camera_frame c7_resolved 8

/-- C7 is right about the latch and wrong about its release: during the
gesture the tick indeed leaves the held frame untouched, but a
confirmed calibration — one of the claim's resolving steps — leaves
`measurement_in_progress` set, so the next acquisition tick still does
not replace the frame. -/
theorem C7_latch_never_released :
    c7_after_click.measurement_in_progress = true
    ∧ c7_during.frame = some 0
    ∧ c7_resolved.calibrating = false
    ∧ c7_resolved.measurement_in_progress = true
    ∧ c7_next_tick.frame = some 0 := by
  refine ⟨rfl, rfl, rfl, rfl, rfl⟩

/-- The display-to-native mapping as §4.1 of the spec words it, for the
refinement comparison in C2: the size ratio in real arithmetic, then
truncation toward zero to an integer pixel coordinate. -/
def toNative_spec (p : Pt) (ow oh cw ch : ℚ) : Pt :=
  ⟨(truncQ (p.x * ow / cw) : ℤ), (truncQ (p.y * oh / ch) : ℤ)⟩

/-- C2 as stated is false: the points fed into the distance computation
are never truncated. With a 3x3 native frame shown on a 2x2 surface,
the display drag from `(0,0)` to `(1,0)` measures `3/2` native pixels
(the mapped point is the non-integer `(3/2, 0)`), while the claim's
truncate-then-measure value is `1`. -/
theorem C2_no_truncation_counterexample :
    scale_point ⟨1, 0⟩ 3 3 2 2 = ⟨3/2, 0⟩
    ∧ calculate_distance_full ⟨0, 0⟩ ⟨1, 0⟩ 3 3 2 2 = 3/2
    ∧ toNative_spec ⟨1, 0⟩ 3 3 2 2 = ⟨1, 0⟩
    ∧ calculate_distance (toNative_spec ⟨0, 0⟩ 3 3 2 2) (toNative_spec ⟨1, 0⟩ 3 3 2 2)
        = 1
    ∧ (3/2 : ℝ) ≠ 1 := by
  have hfloor : ⌊(3 / 2 : ℚ)⌋ = 1 := by
    rw [Int.floor_eq_iff]
    norm_num
  refine ⟨?_, ?_, ?_, ?_, ?_⟩
  · simp [scale_point]
  · have hs0 : scale_point ⟨0, 0⟩ 3 3 2 2 = ⟨0, 0⟩ := by
      simp [scale_point]
    have hs1 : scale_point ⟨1, 0⟩ 3 3 2 2 = ⟨3/2, 0⟩ := by
      simp [scale_point]
    rw [calculate_distance_full, hs0, hs1, calculate_distance_def]
    rw [if_pos (by norm_num), if_neg (by norm_num)]
    have hrad : ((((3 : ℚ)/2 - 0) ^ 2 + ((0 : ℚ) - 0) ^ 2 : ℚ) : ℝ) = (3/2) ^ 2 := by
      norm_num
    rw [hrad, Real.sqrt_sq (by norm_num)]
  · simp [toNative_spec, truncQ]
    rw [if_pos (by norm_num), hfloor]
    norm_num
  · have ht0 : toNative_spec ⟨0, 0⟩ 3 3 2 2 = ⟨0, 0⟩ := by
      simp [toNative_spec, truncQ]
    have ht1 : toNative_spec ⟨1, 0⟩ 3 3 2 2 = ⟨1, 0⟩ := by
      simp [toNative_spec, truncQ]
      rw [if_pos (by norm_num), hfloor]
      norm_num
    rw [ht0, ht1, calculate_distance_def]
    rw [if_pos (by norm_num), if_neg (by norm_num)]
    have hrad : ((((1 : ℚ) - 0) ^ 2 + ((0 : ℚ) - 0) ^ 2 : ℚ) : ℝ) = 1 := by
      norm_num
    rw [hrad, Real.sqrt_one]
  · norm_num

/-- C2 amended: each display point is mapped by the exact ratio
`display * native / surface` in real (exact) arithmetic, and the points
fed into the distance computation keep that un-truncated value; the
overlay drawing path (`update_camera`) truncates the same ratio toward
zero to integer pixel coordinates. -/
theorem C2_scaling_amended (p1 p2 p : Pt) (ow oh cw ch : ℚ) :
    calculate_distance_full p1 p2 ow oh cw ch
        = calculate_distance
            ⟨p1.x * ow / cw, p1.y * oh / ch⟩ ⟨p2.x * ow / cw, p2.y * oh / ch⟩
    ∧ scale_point p ow oh cw ch = ⟨p.x * ow / cw, p.y * oh / ch⟩
    ∧ draw_scale_point p ow oh cw ch
        = (truncQ ((scale_point p ow oh cw ch).x),
            truncQ ((scale_point p ow oh cw ch).y))
    ∧ (∀ q : ℚ, |(truncQ q : ℚ)| ≤ |q| ∧ |q| < |(truncQ q : ℚ)| + 1) := by
  refine ⟨rfl, rfl, rfl, ?_⟩
  intro q
  by_cases h : 0 ≤ q
  · have ht : truncQ q = ⌊q⌋ := if_pos h
    have h1 : (0 : ℤ) ≤ ⌊q⌋ := Int.floor_nonneg.mpr h
    have h2 : ((⌊q⌋ : ℚ)) ≤ q := Int.floor_le q
    have h3 : q < (⌊q⌋ : ℚ) + 1 := Int.lt_floor_add_one q
    have h4 : (0 : ℚ) ≤ (⌊q⌋ : ℚ) := by exact_mod_cast h1
    rw [ht, abs_of_nonneg h, abs_of_nonneg h4]
    exact ⟨h2, h3⟩
  · push_neg at h
    have ht : truncQ q = ⌈q⌉ := if_neg (not_le.mpr h)
    have h1 : (⌈q⌉ : ℚ) ≤ 0 := by
      exact_mod_cast Int.ceil_le.mpr (by exact_mod_cast h.le)
    have h2 : q ≤ (⌈q⌉ : ℚ) := Int.le_ceil q
    have h3 : (⌈q⌉ : ℚ) < q + 1 := Int.ceil_lt_add_one q
    rw [ht, abs_of_neg h, abs_of_nonpos h1]
    constructor <;> linarith
